import Mathlib

/-!
# MeesmanBot — price-change detection and notification pipeline

A shallow embedding, in Lean 4, of the core of the MeesmanBot repository:

* `src/scraper.ts` — the Extractor: regex-based extraction of price, price
  date, ISIN code, annual costs and yearly performances from page text,
  and `calculatePercentageChange`;
* `src/storage.ts` — the Price Store: the SQLite tables `price_history`
  and `subscriptions` together with the queries `addPriceEntry`
  (`INSERT OR REPLACE`), `getLatestPrice` (`ORDER BY id DESC LIMIT 1`),
  `addSubscription` (plain `INSERT`, catching the UNIQUE-constraint error)
  and `removeSubscription` (`DELETE`, reporting `changes > 0`);
* `src/index.ts` — the change classification of `checkForUpdatesForFund`
  (`!previousData || Math.abs(newPrice - previousData.price) >= 0.0001`).

Numbers are modelled as `ℚ` (exact decimal arithmetic): every concrete
value appearing in the specification (`96.6307`, `0.0001`, …) is an exact
decimal, and the classifications asserted by the specification are
insensitive to double rounding at those inputs.

JavaScript regular expressions are embedded by a small backtracking
matcher over `List Char`.  A `Matcher α` returns the list of all ways to
match a pattern at the start of the input, in the JS engine's
backtracking priority order (greedy quantifiers try the longer
continuation first); the first element is the match JS reports.
-/

/-! ## Backtracking matcher combinators (JS regex semantics) -/

/-- All ways of matching a pattern at the start of the input, in the JS
backtracking priority order: each result is the parsed value together
with the remaining input. -/
abbrev Matcher (α : Type) := List Char → List (α × List Char)

/-- Succeed without consuming input. -/
def mpure (a : α) : Matcher α := fun s => [(a, s)]

/-- Sequencing: match `p`, then continue with `f`. -/
def mbind (p : Matcher α) (f : α → Matcher β) : Matcher β :=
  fun s => (p s).flatMap (fun ar => f ar.1 ar.2)

/-- Map over the matched value. -/
def mmap (f : α → β) (p : Matcher α) : Matcher β :=
  fun s => (p s).map (fun ar => (f ar.1, ar.2))

/-- Ordered alternation: all results of `p`, then all results of `q`. -/
def malt (p q : Matcher α) : Matcher α := fun s => p s ++ q s

/-- Consume one character satisfying `f` (a character class). -/
def msat (f : Char → Bool) : Matcher Char
  | [] => []
  | c :: cs => if f c then [(c, cs)] else []

/-- Consume one literal character. -/
def mchar (c : Char) : Matcher Char := msat (· == c)

/-- Consume one literal character, case-insensitively (the `/i` flag). -/
def mcharCI (c : Char) : Matcher Char := msat (fun x => x.toLower == c.toLower)

/-- Greedy `?`: try matching `p` first, then the empty match. -/
def mopt (p : Matcher α) : Matcher (Option α) :=
  malt (mmap some p) (mpure none)

/-- Greedy `*` on a single-character class, with fuel (the class consumes
one character per iteration, so the input length is enough fuel). -/
def mmanyAux (p : Matcher Char) : Nat → Matcher (List Char)
  | 0 => mpure []
  | n + 1 => malt (mbind p (fun c => mmap (c :: ·) (mmanyAux p n))) (mpure [])

/-- Greedy `*` on a single-character class. -/
def mmany (p : Matcher Char) : Matcher (List Char) :=
  fun s => mmanyAux p s.length s

/-- Greedy `+` on a single-character class. -/
def mmany1 (p : Matcher Char) : Matcher (List Char) :=
  mbind p (fun c => mmap (c :: ·) (mmany p))

/-- Exact repetition `{n}` of a single-character class. -/
def mrep (p : Matcher Char) : Nat → Matcher (List Char)
  | 0 => mpure []
  | n + 1 => mbind p (fun c => mmap (c :: ·) (mrep p n))

/-- Leftmost match: try the pattern at each start position from the left;
at the first position where it matches, return the engine's first result
together with the input remaining after the match (JS `String.match` /
`RegExp.exec` semantics). -/
def searchFirstR (p : Matcher α) : List Char → Option (α × List Char)
  | [] => (p []).head?
  | c :: rest =>
    match p (c :: rest) with
    | r :: _ => some r
    | [] => searchFirstR p rest

/-- Leftmost match, value only (JS `String.match` capture access). -/
def searchFirst (p : Matcher α) (s : List Char) : Option α :=
  (searchFirstR p s).map Prod.fst

/-- Repeated matching with the `/g` flag: after each match, continue from
the end of the match (advancing one character on an empty match), exactly
as `RegExp.exec` advances `lastIndex`.  Fuelled; nonempty matches strictly
shrink the input, so `length + 1` is enough fuel. -/
def scanAllAux (p : Matcher α) : Nat → List Char → List α
  | 0, _ => []
  | fuel + 1, s =>
    match searchFirstR p s with
    | some (a, rem) =>
      if rem.length < s.length then a :: scanAllAux p fuel rem
      else a :: scanAllAux p fuel (rem.drop 1)
    | none => []

/-- All matches of a `/g` pattern, in order. -/
def scanAll (p : Matcher α) (s : List Char) : List α :=
  scanAllAux p (s.length + 1) s

/-! ## Character classes and numeric parsing -/

/-- The JS `\s` class (whitespace, per ECMA-262). -/
def isJsSpace (c : Char) : Bool :=
  c == ' ' || c == '\t' || c == '\n' || c == '\r' || c == '\x0B' || c == '\x0C' ||
  c == '\u00A0' || c == '\u1680' || ('\u2000' ≤ c && c ≤ '\u200A') ||
  c == '\u2028' || c == '\u2029' || c == '\u202F' || c == '\u205F' ||
  c == '\u3000' || c == '\uFEFF'

/-- The class `[,.]` (decimal separator). -/
def isSep (c : Char) : Bool := c == ',' || c == '.'

/-- The class `[A-Z0-9]`. -/
def isUpperAlnum (c : Char) : Bool := ('A' ≤ c && c ≤ 'Z') || c.isDigit

/-- Digit run to a natural number (JS `parseInt` on an all-digit string). -/
def digitsToNat (ds : List Char) : Nat :=
  ds.foldl (fun n c => 10 * n + (c.toNat - '0'.toNat)) 0

/-- JS `String.prototype.replace(',', '.')`: replace the first comma. -/
def replaceFirstComma : List Char → List Char
  | [] => []
  | c :: cs => if c == ',' then '.' :: cs else c :: replaceFirstComma cs

/-- JS `parseFloat`, restricted to the shapes the extraction regexes can
capture: optional sign, a digit run, optionally a period and a (possibly
empty) digit run.  The value is the exact decimal, as a rational. -/
def parseFloatQ (cs : List Char) : ℚ :=
  match cs with
  | '-' :: rest => -(parseFloatPos rest)
  | _ => parseFloatPos cs
where
  parseFloatPos (cs : List Char) : ℚ :=
    let ip := cs.takeWhile Char.isDigit
    match cs.dropWhile Char.isDigit with
    | '.' :: fs =>
      let fp := fs.takeWhile Char.isDigit
      (digitsToNat ip : ℚ) + (digitsToNat fp : ℚ) / ((10 : ℚ) ^ fp.length)
    | _ => (digitsToNat ip : ℚ)

/-- The numeric value the source assigns from a captured group:
`parseFloat(capture.replace(',', '.'))`. -/
def jsNumOfCapture (cs : List Char) : ℚ := parseFloatQ (replaceFirstComma cs)

/-! ## The extraction regexes of `fetchFundData` (`src/scraper.ts`) -/

/-- The group `(\d+[,.]?\d+)`: capture is the consumed text. -/
def priceNumberP : Matcher (List Char) :=
  mbind (mmany1 (msat Char.isDigit)) fun a =>
  mbind (mopt (msat isSep)) fun sep =>
  mbind (mmany1 (msat Char.isDigit)) fun b =>
  mpure (a ++ (match sep with | some c => [c] | none => []) ++ b)

/-- `€\s*(\d+[,.]?\d+)\s*\((\d{2})-(\d{2})-(\d{4})\)` — price followed by
a parenthesized DD-MM-YYYY date.  Result: (price capture, DD, MM, YYYY). -/
def priceWithDateP : Matcher (List Char × List Char × List Char × List Char) :=
  mbind (mchar '€') fun _ =>
  mbind (mmany (msat isJsSpace)) fun _ =>
  mbind priceNumberP fun num =>
  mbind (mmany (msat isJsSpace)) fun _ =>
  mbind (mchar '(') fun _ =>
  mbind (mrep (msat Char.isDigit) 2) fun dd =>
  mbind (mchar '-') fun _ =>
  mbind (mrep (msat Char.isDigit) 2) fun mm =>
  mbind (mchar '-') fun _ =>
  mbind (mrep (msat Char.isDigit) 4) fun yyyy =>
  mbind (mchar ')') fun _ =>
  mpure (num, dd, mm, yyyy)

/-- `€\s*(\d+[,.]?\d+)` — the bare-price fallback. -/
def priceBareP : Matcher (List Char) :=
  mbind (mchar '€') fun _ =>
  mbind (mmany (msat isJsSpace)) fun _ =>
  priceNumberP

/-- `NL[A-Z0-9]{10}` — the ISIN pattern of the source. -/
def isinP : Matcher (List Char) :=
  mbind (mchar 'N') fun _ =>
  mbind (mchar 'L') fun _ =>
  mbind (mrep (msat isUpperAlnum) 10) fun r =>
  mpure ('N' :: 'L' :: r)

/-- `(\d+[,.]?\d*)\s*%\s*per\s*jaar` with `/i` — the annual-costs pattern. -/
def costsP : Matcher (List Char) :=
  mbind (mmany1 (msat Char.isDigit)) fun a =>
  mbind (mopt (msat isSep)) fun sep =>
  mbind (mmany (msat Char.isDigit)) fun b =>
  mbind (mmany (msat isJsSpace)) fun _ =>
  mbind (mchar '%') fun _ =>
  mbind (mmany (msat isJsSpace)) fun _ =>
  mbind (mcharCI 'p') fun _ =>
  mbind (mcharCI 'e') fun _ =>
  mbind (mcharCI 'r') fun _ =>
  mbind (mmany (msat isJsSpace)) fun _ =>
  mbind (mcharCI 'j') fun _ =>
  mbind (mcharCI 'a') fun _ =>
  mbind (mcharCI 'a') fun _ =>
  mbind (mcharCI 'r') fun _ =>
  mpure (a ++ (match sep with | some c => [c] | none => []) ++ b)

/-- `(\d{4})\s*[:.]?\s*(-?\d+[,.]?\d*)\s*%` with `/g` — the yearly
performance pattern.  Result: (year capture, number capture). -/
def perfP : Matcher (List Char × List Char) :=
  mbind (mrep (msat Char.isDigit) 4) fun y =>
  mbind (mmany (msat isJsSpace)) fun _ =>
  mbind (mopt (msat (fun c => c == ':' || c == '.'))) fun _ =>
  mbind (mmany (msat isJsSpace)) fun _ =>
  mbind (mopt (mchar '-')) fun neg =>
  mbind (mmany1 (msat Char.isDigit)) fun a =>
  mbind (mopt (msat isSep)) fun sep =>
  mbind (mmany (msat Char.isDigit)) fun b =>
  mbind (mmany (msat isJsSpace)) fun _ =>
  mbind (mchar '%') fun _ =>
  mpure (y, (match neg with | some c => [c] | none => []) ++ a ++
            (match sep with | some c => [c] | none => []) ++ b)

/-! ## The Extractor (`fetchFundData`, extraction step, lines 42–99) -/

/-- The typed record the extraction step fills in (`FundData`, minus the
`fundType` tag and the `fetchedAt` wall-clock timestamp, which carry no
extraction logic). -/
structure FundData where
  price : Option ℚ
  priceDate : Option String
  isin : Option String
  annualCosts : Option ℚ
  performances : List (String × ℚ)
deriving Repr, DecidableEq

/-- JS object property assignment `m[k] = v` (object keys are unique):
update the value in place when the key is present, append otherwise. -/
def objSet : List (String × ℚ) → String → ℚ → List (String × ℚ)
  | [], k, v => [(k, v)]
  | p :: m, k, v => if p.1 == k then (k, v) :: m else p :: objSet m k v

/-- JS object property read `m[k]`. -/
def objGet : List (String × ℚ) → String → Option ℚ
  | [], _ => none
  | p :: m, k => if p.1 == k then some p.2 else objGet m k

/-- The `performances` accumulation loop: scan all matches of `perfP`,
keep years in `[2020, 2030]`, and assign into a year-keyed object. -/
def buildPerfMap (ms : List (List Char × List Char)) : List (String × ℚ) :=
  ms.foldl
    (fun m yn =>
      if 2020 ≤ digitsToNat yn.1 ∧ digitsToNat yn.1 ≤ 2030 then
        objSet m (String.mk yn.1) (jsNumOfCapture yn.2)
      else m)
    []

/-- The extraction step of `fetchFundData` (`src/scraper.ts`, lines
42–99), on the page text: starts from an all-null record and fills each
field from its own pattern, in source order. -/
def extractChars (t : List Char) : FundData :=
  let data : FundData :=
    { price := none, priceDate := none, isin := none, annualCosts := none,
      performances := [] }
  let data :=
    match searchFirst priceWithDateP t with
    | some (num, dd, mm, yyyy) =>
      { data with
        price := some (jsNumOfCapture num),
        priceDate := some (String.mk (yyyy ++ '-' :: mm ++ '-' :: dd)) }
    | none =>
      match searchFirst priceBareP t with
      | some num => { data with price := some (jsNumOfCapture num) }
      | none => data
  let data :=
    match searchFirst isinP t with
    | some cs => { data with isin := some (String.mk cs) }
    | none => data
  let data :=
    match searchFirst costsP t with
    | some num => { data with annualCosts := some (jsNumOfCapture num) }
    | none => data
  { data with performances := buildPerfMap (scanAll perfP t) }

/-- The extraction step, on a string. -/
def extract (s : String) : FundData := extractChars s.toList

/-- `calculatePercentageChange` (`src/scraper.ts`, lines 105–108).  On
rationals, the JS guard `!oldPrice || oldPrice === 0` is `oldPrice = 0`. -/
def calculatePercentageChange (oldPrice newPrice : ℚ) : ℚ :=
  if oldPrice = 0 then 0 else ((newPrice - oldPrice) / oldPrice) * 100

/-! ## The Price Store (`src/storage.ts`)

The SQLite schema (`initDatabase`):

* `price_history(id INTEGER PRIMARY KEY AUTOINCREMENT, fund_type, price,
  price_date, fetched_at, performances, UNIQUE(fund_type, price_date))`;
* `subscriptions(id INTEGER PRIMARY KEY AUTOINCREMENT, guild_id,
  channel_id, fund_type, subscribed_at, UNIQUE(guild_id, channel_id,
  fund_type))`.

Tables are modelled as lists of rows in insertion order.  Per SQL NULL
semantics, a NULL `price_date` is distinct from every value (including
another NULL) for the UNIQUE constraint. -/

/-- One row of `price_history`. -/
structure PriceRow where
  id : Nat
  fundType : String
  price : ℚ
  priceDate : Option String
  fetchedAt : String
  performances : Option (List (String × ℚ))
deriving Repr, DecidableEq

/-- The `price_history` table: rows in insertion order, plus the next
AUTOINCREMENT id. -/
structure PriceDB where
  rows : List PriceRow
  nextId : Nat
deriving Repr, DecidableEq

/-- The values `addPriceEntry` binds into its INSERT (the `FundData` of a
successful fetch: callers only store data whose price is non-null). -/
structure StoredEntry where
  fundType : String
  price : ℚ
  priceDate : Option String
  fetchedAt : String
  performances : Option (List (String × ℚ))
deriving Repr, DecidableEq

/-- Does an existing row conflict with an inserted `(fund_type,
price_date)` under `UNIQUE(fund_type, price_date)`?  A NULL `price_date`
never conflicts (SQL NULLs are pairwise distinct). -/
def conflictsWith (r : PriceRow) (fund : String) (d : Option String) : Bool :=
  match d with
  | none => false
  | some dv => r.fundType == fund && r.priceDate == some dv

/-- `addPriceEntry` (`src/storage.ts`, lines 259–270):
`INSERT OR REPLACE INTO price_history (fund_type, price, price_date,
fetched_at, performances) VALUES (?, ?, ?, ?, ?)`.  SQLite deletes every
row conflicting on a UNIQUE constraint, then inserts the new row with a
fresh AUTOINCREMENT id.  `insertedRow` is that new row. -/
def insertedRow (db : PriceDB) (e : StoredEntry) : PriceRow :=
  { id := db.nextId, fundType := e.fundType, price := e.price,
    priceDate := e.priceDate, fetchedAt := e.fetchedAt,
    performances := e.performances }

/-- `addPriceEntry` itself: delete the conflicting rows, append the new
row, advance the AUTOINCREMENT counter. -/
def addPriceEntry (db : PriceDB) (e : StoredEntry) : PriceDB :=
  { rows := db.rows.filter (fun r => !(conflictsWith r e.fundType e.priceDate)) ++
      [insertedRow db e],
    nextId := db.nextId + 1 }

/-- One step of scanning for the row with the largest id. -/
def maxStep (acc : Option PriceRow) (r : PriceRow) : Option PriceRow :=
  match acc with
  | none => some r
  | some a => if a.id < r.id then some r else some a

/-- `SELECT … ORDER BY id DESC LIMIT 1`: the row with the largest id. -/
def maxIdRow (l : List PriceRow) : Option PriceRow :=
  l.foldl maxStep none

/-- `getLatestPrice` (`src/storage.ts`, lines 236–254): the row for the
fund with the largest id. -/
def getLatestPrice (db : PriceDB) (fund : String) : Option PriceRow :=
  maxIdRow (db.rows.filter (fun r => r.fundType == fund))

/-- The change classification of `checkForUpdatesForFund`
(`src/index.ts`, lines 197–198): `!previousData ||
Math.abs(currentData.price - previousData.price) >= 0.0001`. -/
def priceChanged (previousData : Option PriceRow) (newPrice : ℚ) : Bool :=
  match previousData with
  | none => true
  | some p => decide ((1 : ℚ)/10000 ≤ |newPrice - p.price|)

/-- One poll cycle's classification for a fund, given the fetched price:
compare against `getLatestPrice` (`src/index.ts`, lines 194–198). -/
def classifyFetch (db : PriceDB) (fund : String) (newPrice : ℚ) : Bool :=
  priceChanged (getLatestPrice db fund) newPrice

/-! ## Subscriptions (`src/storage.ts`) -/

/-- One row of `subscriptions`. -/
structure SubRow where
  guildId : String
  channelId : String
  fundType : String
  subscribedAt : String
deriving Repr, DecidableEq

/-- Row matching the `(guild_id, channel_id, fund_type)` key. -/
def subMatches (r : SubRow) (g c f : String) : Bool :=
  r.guildId == g && r.channelId == c && r.fundType == f

/-- The plain `INSERT INTO subscriptions …`: raises the SQLite
UNIQUE-constraint error when a row with the same `(guild_id, channel_id,
fund_type)` already exists. -/
def insertSubscription (tbl : List SubRow) (row : SubRow) :
    Except String (List SubRow) :=
  if tbl.any (fun r => subMatches r row.guildId row.channelId row.fundType) then
    .error "UNIQUE constraint failed: subscriptions.guild_id, subscriptions.channel_id, subscriptions.fund_type"
  else
    .ok (tbl ++ [row])

/-- `List Char` version of JS `String.prototype.startsWith`. -/
def charsStartWith : List Char → List Char → Bool
  | _, [] => true
  | [], _ :: _ => false
  | a :: as, b :: bs => a == b && charsStartWith as bs

/-- `List Char` version of JS `String.prototype.includes`. -/
def charsInclude : List Char → List Char → Bool
  | [], pat => pat.isEmpty
  | c :: rest, pat => charsStartWith (c :: rest) pat || charsInclude rest pat

/-- JS `err.message.includes(sub)`. -/
def strIncludes (s sub : String) : Bool := charsInclude s.toList sub.toList

/-- `addSubscription` (`src/storage.ts`, lines 131–144): try the INSERT;
catch an error whose message contains `UNIQUE constraint failed` and
report `false`; re-throw anything else.  Returns the reported boolean and
the resulting table. -/
def addSubscription (tbl : List SubRow) (g c f now : String) :
    Except String (Bool × List SubRow) :=
  match insertSubscription tbl ⟨g, c, f, now⟩ with
  | .ok t => .ok (true, t)
  | .error msg =>
    if strIncludes msg "UNIQUE constraint failed" then .ok (false, tbl)
    else .error msg

/-- `removeSubscription` (`src/storage.ts`, lines 150–156):
`DELETE FROM subscriptions WHERE guild_id = ? AND channel_id = ? AND
fund_type = ?`, reporting `result.changes > 0`. -/
def removeSubscription (tbl : List SubRow) (g c f : String) :
    Bool × List SubRow :=
  let remaining := tbl.filter (fun r => !(subMatches r g c f))
  (decide (remaining.length < tbl.length), remaining)

/-! ## Helper lemmas -/

/-- Rows surviving a deletion of every `p`-row contain no `p`-row. -/
theorem filter_not_filter_self (p : α → Bool) (l : List α) :
    (l.filter (fun a => !(p a))).filter p = [] := by
  induction l with
  | nil => rfl
  | cons a l ih =>
    by_cases h : p a = true
    · simp [List.filter_cons, h, ih]
    · simp only [Bool.not_eq_true] at h
      simp [List.filter_cons, h, ih]

/-- The folding step of `maxIdRow`. -/
theorem maxStep_lt (acc : Option PriceRow) (x b : PriceRow)
    (hacc : ∀ a, acc = some a → a.id < x.id) (hb : b.id < x.id) :
    ∀ a, maxStep acc b = some a → a.id < x.id := by
  intro a ha
  cases acc with
  | none =>
    simp only [maxStep] at ha
    cases ha; exact hb
  | some c =>
    have hc := hacc c rfl
    simp only [maxStep] at ha
    by_cases h : c.id < b.id
    · rw [if_pos h] at ha; cases ha; exact hb
    · rw [if_neg h] at ha; cases ha; exact hc

/-- Folding `maxStep` over `l ++ [x]` yields `x` when every id seen so
far is below `x.id`. -/
theorem foldl_maxStep_append (l : List PriceRow) (x : PriceRow) (acc : Option PriceRow)
    (hacc : ∀ a, acc = some a → a.id < x.id)
    (h : ∀ r ∈ l, r.id < x.id) : (l ++ [x]).foldl maxStep acc = some x := by
  induction l generalizing acc with
  | nil =>
    cases acc with
    | none => rfl
    | some a =>
      have ha := hacc a rfl
      simp [maxStep, ha, Nat.not_lt_of_gt ha]
  | cons b l ih =>
    rw [List.cons_append, List.foldl_cons]
    exact ih (maxStep acc b)
      (maxStep_lt acc x b hacc (h b (List.mem_cons_self b l)))
      (fun r hr => h r (List.mem_cons_of_mem b hr))

/-! ## Claims -/

/-- C10: for every pair of prices, `calculatePercentageChange(oldPrice,
newPrice)` returns 0 whenever `oldPrice` is zero (the division is
guarded), and otherwise returns `((newPrice - oldPrice) / oldPrice) *
100`. -/
theorem calculatePercentageChange_guarded (oldPrice newPrice : ℚ) :
    (oldPrice = 0 → calculatePercentageChange oldPrice newPrice = 0) ∧
    (oldPrice ≠ 0 → calculatePercentageChange oldPrice newPrice =
      ((newPrice - oldPrice) / oldPrice) * 100) := by
  constructor <;> intro h <;> simp [calculatePercentageChange, h]

/-- Witness for C10 at `oldPrice = 0, newPrice = 5` and
`oldPrice = 4, newPrice = 5`. -/
theorem calculatePercentageChange_guarded_witness :
    calculatePercentageChange 0 5 = 0 ∧ calculatePercentageChange 4 5 = 25 := by
  constructor
  · exact (calculatePercentageChange_guarded 0 5).1 rfl
  · rw [(calculatePercentageChange_guarded 4 5).2 (by norm_num)]; norm_num

/-- C1: the poll cycle classifies the fetched price as changed exactly
when no prior stored observation exists or the absolute difference from
the prior stored price is at least 0.0001; with prior price 100.0000, a
new price of 100.00005 is classified unchanged and 100.0002 changed. -/
theorem classifyFetch_changed_iff_threshold (db : PriceDB) (fund : String) (p : ℚ) :
    (classifyFetch db fund p = true ↔
      getLatestPrice db fund = none ∨
        ∃ r, getLatestPrice db fund = some r ∧ (1 : ℚ)/10000 ≤ |p - r.price|) ∧
    (∀ r : PriceRow, r.price = 100 →
      priceChanged (some r) (2000001/20000) = false ∧
      priceChanged (some r) (500001/5000) = true) := by
  constructor
  · unfold classifyFetch
    cases h : getLatestPrice db fund with
    | none => simp [priceChanged]
    | some r => simp [priceChanged]
  · intro r h
    constructor
    · simp only [priceChanged, h, decide_eq_false_iff_not, not_le]
      have : (2000001/20000 - 100 : ℚ) = 1/20000 := by norm_num
      rw [this, abs_of_pos (by norm_num)]
      norm_num
    · simp only [priceChanged, h, decide_eq_true_eq]
      have : (500001/5000 - 100 : ℚ) = 1/5000 := by norm_num
      rw [this, abs_of_pos (by norm_num)]
      norm_num

/-- Witness for C1: a stored price of 100.0000, fetched prices 100.00005
(unchanged) and 100.0002 (changed). -/
theorem classifyFetch_changed_iff_threshold_witness :
    priceChanged (some ⟨0, "wereldwijd", 100, some "2026-01-09", "t0", none⟩)
        (2000001/20000) = false ∧
    priceChanged (some ⟨0, "wereldwijd", 100, some "2026-01-09", "t0", none⟩)
        (500001/5000) = true :=
  (classifyFetch_changed_iff_threshold ⟨[], 0⟩ "wereldwijd" 0).2
    ⟨0, "wereldwijd", 100, some "2026-01-09", "t0", none⟩ rfl

/-- C8: for every subscription table and key triple with no matching row,
`removeSubscription` returns `false` and leaves the table unchanged. -/
theorem removeSubscription_missing_noop (tbl : List SubRow) (g c f : String)
    (h : ∀ r ∈ tbl, subMatches r g c f = false) :
    removeSubscription tbl g c f = (false, tbl) := by
  unfold removeSubscription
  have hfilter : tbl.filter (fun r => !(subMatches r g c f)) = tbl := by
    apply List.filter_eq_self.mpr
    intro r hr
    simp [h r hr]
  rw [hfilter]
  simp

/-- Witness for C8: removing `("g2", "c1", "wereldwijd")` from a table
holding only `("g1", "c1", "wereldwijd")`. -/
theorem removeSubscription_missing_noop_witness :
    removeSubscription [⟨"g1", "c1", "wereldwijd", "t0"⟩] "g2" "c1" "wereldwijd" =
      (false, [⟨"g1", "c1", "wereldwijd", "t0"⟩]) :=
  removeSubscription_missing_noop [⟨"g1", "c1", "wereldwijd", "t0"⟩] "g2" "c1"
    "wereldwijd" (by decide)

/-- C7: on a table with no row for the triple, `addSubscription` reports
`true` on the first call and `false` on the second, exactly one matching
row exists afterwards, and (on any table) the duplicate insert is
recovered as a boolean outcome, never surfaced as an error. -/
theorem addSubscription_duplicate_boolean (tbl : List SubRow) (g c f t1 t2 : String)
    (h : ∀ r ∈ tbl, subMatches r g c f = false) :
    (∀ (tbl' : List SubRow) (g' c' f' t' : String),
      ∃ b out, addSubscription tbl' g' c' f' t' = .ok (b, out)) ∧
    addSubscription tbl g c f t1 = .ok (true, tbl ++ [⟨g, c, f, t1⟩]) ∧
    addSubscription (tbl ++ [⟨g, c, f, t1⟩]) g c f t2 =
      .ok (false, tbl ++ [⟨g, c, f, t1⟩]) ∧
    (tbl ++ ([⟨g, c, f, t1⟩] : List SubRow)).filter (fun r => subMatches r g c f) =
      ([⟨g, c, f, t1⟩] : List SubRow) := by
  have hmsg : strIncludes
      "UNIQUE constraint failed: subscriptions.guild_id, subscriptions.channel_id, subscriptions.fund_type"
      "UNIQUE constraint failed" = true := by decide
  have hany : tbl.any (fun r => subMatches r g c f) = false := by
    rw [List.any_eq_false]
    intro r hr
    simp [h r hr]
  refine ⟨?_, ?_, ?_, ?_⟩
  · intro tbl' g' c' f' t'
    unfold addSubscription insertSubscription
    by_cases hdup : tbl'.any (fun r => subMatches r g' c' f') = true
    · rw [if_pos hdup]
      exact ⟨false, tbl', by simp [hmsg]⟩
    · rw [if_neg hdup]
      exact ⟨true, tbl' ++ [⟨g', c', f', t'⟩], rfl⟩
  · unfold addSubscription insertSubscription
    rw [if_neg (by simp [hany])]
  · unfold addSubscription insertSubscription
    have hself : subMatches (⟨g, c, f, t1⟩ : SubRow) g c f = true := by
      simp [subMatches]
    rw [if_pos (by simp [List.any_append, hany, hself])]
    simp [hmsg]
  · rw [List.filter_append]
    have h1 : tbl.filter (fun r => subMatches r g c f) = [] := by
      rw [List.filter_eq_nil_iff]
      intro r hr
      simp [h r hr]
    rw [h1]
    simp [subMatches]

/-- Witness for C7: following the same fund twice from the same channel,
starting from an empty subscription table. -/
theorem addSubscription_duplicate_boolean_witness :
    addSubscription [] "g1" "c1" "wereldwijd" "t1" =
      .ok (true, [⟨"g1", "c1", "wereldwijd", "t1"⟩]) ∧
    addSubscription [⟨"g1", "c1", "wereldwijd", "t1"⟩] "g1" "c1" "wereldwijd" "t2" =
      .ok (false, [⟨"g1", "c1", "wereldwijd", "t1"⟩]) ∧
    [(⟨"g1", "c1", "wereldwijd", "t1"⟩ : SubRow)].filter
      (fun r => subMatches r "g1" "c1" "wereldwijd") =
      [⟨"g1", "c1", "wereldwijd", "t1"⟩] := by
  have h := addSubscription_duplicate_boolean [] "g1" "c1" "wereldwijd" "t1" "t2"
    (by decide)
  exact ⟨h.2.1, h.2.2.1, h.2.2.2⟩

/-- C3: two upserts for the same `(fund, priceDate)` pair leave exactly
one row for that pair, carrying the second call's price; in general an
upsert preserves "at most one row per `(fund, some date)` pair". -/
theorem addPriceEntry_upsert_unique (db : PriceDB) (e1 e2 : StoredEntry)
    (fund d : String)
    (h2 : e2.fundType = fund) (hd2 : e2.priceDate = some d) :
    ((addPriceEntry (addPriceEntry db e1) e2).rows.filter
        (fun r => r.fundType == fund && r.priceDate == some d)) =
      [{ id := (addPriceEntry db e1).nextId, fundType := fund, price := e2.price,
         priceDate := some d, fetchedAt := e2.fetchedAt,
         performances := e2.performances }] ∧
    (∀ (db' : PriceDB) (e : StoredEntry) (f dv : String),
      (db'.rows.filter
          (fun r => r.fundType == f && r.priceDate == some dv)).length ≤ 1 →
      ((addPriceEntry db' e).rows.filter
          (fun r => r.fundType == f && r.priceDate == some dv)).length ≤ 1) := by
  constructor
  · have hconf : ∀ r : PriceRow,
        conflictsWith r e2.fundType e2.priceDate =
          (r.fundType == fund && r.priceDate == some d) := by
      intro r
      rw [h2, hd2]
      simp [conflictsWith]
    show ((addPriceEntry db e1).rows.filter
        (fun r => !(conflictsWith r e2.fundType e2.priceDate)) ++
          [insertedRow (addPriceEntry db e1) e2]).filter
        (fun r => r.fundType == fund && r.priceDate == some d) = _
    rw [List.filter_append]
    simp only [hconf]
    rw [filter_not_filter_self]
    simp [insertedRow, h2, hd2]
  · intro db' e f dv hlen
    show ((db'.rows.filter (fun r => !(conflictsWith r e.fundType e.priceDate)) ++
        [insertedRow db' e]).filter
        (fun r => r.fundType == f && r.priceDate == some dv)).length ≤ 1
    rw [List.filter_append]
    cases he : e.priceDate with
    | none =>
      have hnew : ([insertedRow db' e].filter
          (fun r => r.fundType == f && r.priceDate == some dv)) = [] := by
        simp [insertedRow, he]
      rw [hnew, List.append_nil]
      exact le_trans ((List.filter_sublist db'.rows).filter _).length_le hlen
    | some dv' =>
      by_cases hmatch : e.fundType = f ∧ dv' = dv
      · have hconf : ∀ r : PriceRow,
            conflictsWith r e.fundType (some dv') =
              (r.fundType == f && r.priceDate == some dv) := by
          intro r
          rw [hmatch.1, hmatch.2]
          simp [conflictsWith]
        simp only [hconf]
        rw [filter_not_filter_self, List.nil_append]
        exact le_trans (List.length_filter_le _ _) (by simp)
      · have hnew : ([insertedRow db' e].filter
            (fun r => r.fundType == f && r.priceDate == some dv)) = [] := by
          by_cases hf : e.fundType = f
          · have hdv : dv' ≠ dv := fun hh => hmatch ⟨hf, hh⟩
            simp [insertedRow, he, hf, hdv]
          · simp [insertedRow, he, hf]
        rw [hnew, List.append_nil]
        exact le_trans ((List.filter_sublist db'.rows).filter _).length_le hlen

/-- Witness for C3: upserting `(wereldwijd, 2026-01-09)` twice, with
prices 100 and 101, onto an empty store. -/
theorem addPriceEntry_upsert_unique_witness :
    ((addPriceEntry
        (addPriceEntry ⟨[], 0⟩ ⟨"wereldwijd", 100, some "2026-01-09", "t1", none⟩)
        ⟨"wereldwijd", 101, some "2026-01-09", "t2", none⟩).rows.filter
      (fun r => r.fundType == "wereldwijd" && r.priceDate == some "2026-01-09")) =
      [{ id := 1, fundType := "wereldwijd", price := 101,
         priceDate := some "2026-01-09", fetchedAt := "t2",
         performances := none }] :=
  (addPriceEntry_upsert_unique ⟨[], 0⟩
    ⟨"wereldwijd", 100, some "2026-01-09", "t1", none⟩
    ⟨"wereldwijd", 101, some "2026-01-09", "t2", none⟩
    "wereldwijd" "2026-01-09" rfl rfl).1

/-- C9: upserting an observation with a NULL price date never replaces an
existing row (SQL NULLs are pairwise distinct for the UNIQUE key): the
table grows by exactly the new row, and `getLatestPrice` afterwards
returns that most recently inserted row.  The id bound invariant is
preserved. -/
theorem addPriceEntry_nullDate_appends (db : PriceDB) (e : StoredEntry)
    (hWF : ∀ r ∈ db.rows, r.id < db.nextId) (hd : e.priceDate = none) :
    (addPriceEntry db e).rows = db.rows ++ [insertedRow db e] ∧
    getLatestPrice (addPriceEntry db e) e.fundType = some (insertedRow db e) ∧
    (∀ r ∈ (addPriceEntry db e).rows, r.id < (addPriceEntry db e).nextId) := by
  have hrows : (addPriceEntry db e).rows = db.rows ++ [insertedRow db e] := by
    show db.rows.filter (fun r => !(conflictsWith r e.fundType e.priceDate)) ++
      [insertedRow db e] = _
    have hnoconf : ∀ r ∈ db.rows,
        (!(conflictsWith r e.fundType e.priceDate)) = true := by
      intro r _
      rw [hd]
      simp [conflictsWith]
    rw [List.filter_eq_self.mpr hnoconf]
  refine ⟨hrows, ?_, ?_⟩
  · unfold getLatestPrice
    rw [hrows, List.filter_append]
    have hfl : List.filter (fun r => r.fundType == e.fundType)
        [insertedRow db e] = [insertedRow db e] := by
      simp [insertedRow]
    rw [hfl]
    unfold maxIdRow
    apply foldl_maxStep_append
    · intro a ha
      exact absurd ha (by simp)
    · intro r hr
      exact hWF r (List.mem_of_mem_filter hr)
  · intro r hr
    rw [hrows] at hr
    show r.id < db.nextId + 1
    rcases List.mem_append.mp hr with h | h
    · exact Nat.lt_trans (hWF r h) (Nat.lt_succ_self _)
    · rw [List.mem_singleton.mp h]
      exact Nat.lt_succ_self _

/-- Witness for C9: a store already holding one NULL-date row for the
fund; upserting a second NULL-date observation appends rather than
replaces, and becomes the latest row. -/
theorem addPriceEntry_nullDate_appends_witness :
    (addPriceEntry ⟨[⟨0, "wereldwijd", 100, none, "t0", none⟩], 1⟩
        ⟨"wereldwijd", 101, none, "t1", none⟩).rows =
      [⟨0, "wereldwijd", 100, none, "t0", none⟩] ++
        [insertedRow ⟨[⟨0, "wereldwijd", 100, none, "t0", none⟩], 1⟩
          ⟨"wereldwijd", 101, none, "t1", none⟩] ∧
    getLatestPrice
        (addPriceEntry ⟨[⟨0, "wereldwijd", 100, none, "t0", none⟩], 1⟩
          ⟨"wereldwijd", 101, none, "t1", none⟩) "wereldwijd" =
      some (insertedRow ⟨[⟨0, "wereldwijd", 100, none, "t0", none⟩], 1⟩
        ⟨"wereldwijd", 101, none, "t1", none⟩) :=
  ⟨(addPriceEntry_nullDate_appends
      ⟨[⟨0, "wereldwijd", 100, none, "t0", none⟩], 1⟩
      ⟨"wereldwijd", 101, none, "t1", none⟩ (by decide) rfl).1,
   (addPriceEntry_nullDate_appends
      ⟨[⟨0, "wereldwijd", 100, none, "t0", none⟩], 1⟩
      ⟨"wereldwijd", 101, none, "t1", none⟩ (by decide) rfl).2.1⟩

/-- C2: a currency-prefixed decimal immediately followed by a
parenthesized DD-MM-YYYY date yields that number (comma normalized to a
period) as price and the date reassembled as YYYY-MM-DD; with no such
match a bare currency-prefixed decimal yields the price alone and a null
date.  Concretely, `€ 96,6307 (09-01-2026)` gives price 96.6307 and date
`2026-01-09`, and `€ 50,25` gives price 50.25 and a null date. -/
theorem extract_price_and_date (t : List Char) :
    (∀ num dd mm yyyy,
      searchFirst priceWithDateP t = some (num, dd, mm, yyyy) →
        (extractChars t).price = some (jsNumOfCapture num) ∧
        (extractChars t).priceDate =
          some (String.mk (yyyy ++ '-' :: mm ++ '-' :: dd))) ∧
    (searchFirst priceWithDateP t = none →
      ∀ num, searchFirst priceBareP t = some num →
        (extractChars t).price = some (jsNumOfCapture num) ∧
        (extractChars t).priceDate = none) ∧
    (extract "€ 96,6307 (09-01-2026)").price = some (966307/10000) ∧
    (extract "€ 96,6307 (09-01-2026)").priceDate = some "2026-01-09" ∧
    (extract "€ 50,25").price = some (5025/100) ∧
    (extract "€ 50,25").priceDate = none := by
  refine ⟨?_, ?_, ?_, ?_, ?_, ?_⟩
  · intro num dd mm yyyy h
    cases h3 : searchFirst isinP t <;> cases h4 : searchFirst costsP t <;>
      simp [extractChars, h, h3, h4]
  · intro h num h2
    cases h3 : searchFirst isinP t <;> cases h4 : searchFirst costsP t <;>
      simp [extractChars, h, h2, h3, h4]
  · with_unfolding_all rfl
  · with_unfolding_all rfl
  · with_unfolding_all rfl
  · with_unfolding_all rfl

/-- Witness for C2: the date-adjacent branch applied at the
specification's example text. -/
theorem extract_price_and_date_witness :
    (extractChars "€ 96,6307 (09-01-2026)".toList).price =
      some (jsNumOfCapture ['9', '6', ',', '6', '3', '0', '7']) ∧
    (extractChars "€ 96,6307 (09-01-2026)".toList).priceDate =
      some (String.mk
        (['2', '0', '2', '6'] ++ '-' :: ['0', '1'] ++ '-' :: ['0', '9'])) :=
  (extract_price_and_date "€ 96,6307 (09-01-2026)".toList).1
    ['9', '6', ',', '6', '3', '0', '7'] ['0', '9'] ['0', '1'] ['2', '0', '2', '6']
    (by decide)

/-- The `isin` field depends only on the ISIN pattern. -/
theorem extractChars_isin (t : List Char) :
    (extractChars t).isin = (searchFirst isinP t).map String.mk := by
  rcases h1 : searchFirst priceWithDateP t with _ | ⟨num, dd, mm, yyyy⟩ <;>
  rcases h2 : searchFirst priceBareP t with _ | num2 <;>
  rcases h3 : searchFirst isinP t with _ | cs <;>
  rcases h4 : searchFirst costsP t with _ | cn <;>
  simp [extractChars, h1, h2, h3, h4]

/-- The `annualCosts` field depends only on the costs pattern. -/
theorem extractChars_annualCosts (t : List Char) :
    (extractChars t).annualCosts = (searchFirst costsP t).map jsNumOfCapture := by
  rcases h1 : searchFirst priceWithDateP t with _ | ⟨num, dd, mm, yyyy⟩ <;>
  rcases h2 : searchFirst priceBareP t with _ | num2 <;>
  rcases h3 : searchFirst isinP t with _ | cs <;>
  rcases h4 : searchFirst costsP t with _ | cn <;>
  simp [extractChars, h1, h2, h3, h4]

/-- The `performances` field depends only on the global performance scan. -/
theorem extractChars_performances (t : List Char) :
    (extractChars t).performances = buildPerfMap (scanAll perfP t) := by
  rcases h1 : searchFirst priceWithDateP t with _ | ⟨num, dd, mm, yyyy⟩ <;>
  rcases h2 : searchFirst priceBareP t with _ | num2 <;>
  rcases h3 : searchFirst isinP t with _ | cs <;>
  rcases h4 : searchFirst costsP t with _ | cn <;>
  simp [extractChars, h1, h2, h3, h4]

/-- C6: the extraction step is total — on any input (malformed or empty)
it returns a record in which each field is, independently, either its
pattern's extracted value or null/empty when its pattern does not
match. -/
theorem extract_fields_independent_total (t : List Char) :
    (extractChars t).isin = (searchFirst isinP t).map String.mk ∧
    (extractChars t).annualCosts = (searchFirst costsP t).map jsNumOfCapture ∧
    (extractChars t).performances = buildPerfMap (scanAll perfP t) ∧
    ((extractChars t).price = none ↔
      searchFirst priceWithDateP t = none ∧ searchFirst priceBareP t = none) ∧
    ((extractChars t).priceDate = none ↔ searchFirst priceWithDateP t = none) ∧
    extract "" = { price := none, priceDate := none, isin := none,
                   annualCosts := none, performances := [] } := by
  refine ⟨extractChars_isin t, extractChars_annualCosts t,
    extractChars_performances t, ?_, ?_, by decide⟩ <;>
  (rcases h1 : searchFirst priceWithDateP t with _ | ⟨num, dd, mm, yyyy⟩ <;>
   rcases h2 : searchFirst priceBareP t with _ | num2 <;>
   rcases h3 : searchFirst isinP t with _ | cs <;>
   rcases h4 : searchFirst costsP t with _ | cn <;>
   simp [extractChars, h1, h2, h3, h4])

/-- Witness for C6 at a concrete malformed input: every pattern fails and
every field is null/empty. -/
theorem extract_fields_independent_total_witness :
    (extractChars "x".toList).isin = (searchFirst isinP "x".toList).map String.mk ∧
    (extractChars "x".toList).performances =
      buildPerfMap (scanAll perfP "x".toList) :=
  ⟨(extract_fields_independent_total "x".toList).1,
   (extract_fields_independent_total "x".toList).2.2.1⟩

/-- JS object assignment/lookup law: reading `y` after setting `k` yields
the new value at `y = k` and is unchanged otherwise. -/
theorem objGet_objSet (m : List (String × ℚ)) (k y : String) (v : ℚ) :
    objGet (objSet m k v) y = if y = k then some v else objGet m y := by
  induction m with
  | nil =>
    by_cases h : y = k
    · simp [objGet, objSet, h]
    · simp [objGet, objSet, Ne.symm h, h]
  | cons p m ih =>
    by_cases hpk : p.1 = k
    · by_cases hyk : y = k
      · simp [objGet, objSet, hpk, hyk]
      · simp [objGet, objSet, hpk, hyk, Ne.symm hyk]
    · by_cases hpy : p.1 = y
      · have hyk : ¬(y = k) := fun h => hpk (hpy.symm ▸ h ▸ rfl)
        simp [objGet, objSet, hpk, hpy, hyk]
      · simp [objGet, objSet, hpk, hpy, ih]

/-- The specification's description of the performances mapping (for the
refinement comparison): the value at a year key is the value of the last
global-scan match with that year whose year lies in [2020, 2030], absent
when there is no such match. -/
def lastPerfValue (ms : List (List Char × List Char)) (y : String) : Option ℚ :=
  ms.foldl
    (fun acc yn =>
      if (2020 ≤ digitsToNat yn.1 ∧ digitsToNat yn.1 ≤ 2030) ∧
          String.mk yn.1 = y then
        some (jsNumOfCapture yn.2)
      else acc)
    none

/-- Accumulator-generalized reading of the performance fold: looking up
`y` in the accumulated object equals the last-match-wins scan. -/
theorem objGet_perfFold (y : String) (ms : List (List Char × List Char)) :
    ∀ (m : List (String × ℚ)) (acc : Option ℚ), objGet m y = acc →
      objGet (ms.foldl
        (fun m yn =>
          if 2020 ≤ digitsToNat yn.1 ∧ digitsToNat yn.1 ≤ 2030 then
            objSet m (String.mk yn.1) (jsNumOfCapture yn.2)
          else m) m) y =
      ms.foldl
        (fun acc yn =>
          if (2020 ≤ digitsToNat yn.1 ∧ digitsToNat yn.1 ≤ 2030) ∧
              String.mk yn.1 = y then
            some (jsNumOfCapture yn.2)
          else acc) acc := by
  induction ms with
  | nil => intro m acc h; exact h
  | cons yn ms ih =>
    intro m acc h
    rw [List.foldl_cons, List.foldl_cons]
    apply ih
    by_cases hr : 2020 ≤ digitsToNat yn.1 ∧ digitsToNat yn.1 ≤ 2030
    · rw [if_pos hr, objGet_objSet]
      by_cases hk : y = String.mk yn.1
      · rw [if_pos hk, if_pos ⟨hr, hk.symm⟩]
      · rw [if_neg hk, if_neg (fun hc => hk hc.2.symm), h]
    · rw [if_neg hr, if_neg (fun hc => hr hc.1)]
      exact h

/-- C4: the performances map contains exactly the year/percentage pairs
of the global scan whose year lies in [2020, 2030], the last match for a
year winning; an input with `2023: 12,5%` and `2031: 9%` yields exactly
`{2023 ↦ 12.5}` and no entry for 2031. -/
theorem performances_last_match_in_range (t : List Char) (y : String) :
    objGet (extractChars t).performances y = lastPerfValue (scanAll perfP t) y ∧
    (extract "2023: 12,5% en 2031: 9%").performances = [("2023", 25/2)] ∧
    objGet (extract "2023: 12,5% en 2031: 9%").performances "2031" = none := by
  refine ⟨?_, by with_unfolding_all rfl, by with_unfolding_all rfl⟩
  rw [extractChars_performances t]
  unfold buildPerfMap lastPerfValue
  exact objGet_perfFold y (scanAll perfP t) [] none rfl

/-- Witness for C4 at the specification's example input and key. -/
theorem performances_last_match_in_range_witness :
    objGet (extractChars "2023: 12,5% en 2031: 9%".toList).performances "2023" =
      lastPerfValue (scanAll perfP "2023: 12,5% en 2031: 9%".toList) "2023" :=
  (performances_last_match_in_range "2023: 12,5% en 2031: 9%".toList "2023").1

/-- A result of `msat f` is a satisfying head character. -/
theorem msat_mem {f : Char → Bool} {s : List Char} {r : Char × List Char}
    (h : r ∈ msat f s) : f r.1 = true ∧ s = r.1 :: r.2 := by
  cases s with
  | nil => simp [msat] at h
  | cons c cs =>
    by_cases hc : f c = true
    · simp only [msat, if_pos hc, List.mem_singleton] at h
      subst h
      exact ⟨hc, rfl⟩
    · simp [msat, hc] at h

/-- A result of `mrep (msat f) n` consumes exactly `n` characters, all
satisfying `f`. -/
theorem mrep_sound {f : Char → Bool} :
    ∀ (n : Nat) (s : List Char) (r : List Char × List Char),
      r ∈ mrep (msat f) n s → r.1.length = n ∧ r.1.all f = true := by
  intro n
  induction n with
  | zero =>
    intro s r h
    simp only [mrep, mpure, List.mem_singleton] at h
    subst h
    exact ⟨rfl, rfl⟩
  | succ n ih =>
    intro s r h
    simp only [mrep, mbind, mmap, List.mem_flatMap, List.mem_map] at h
    obtain ⟨cr, hcr, r', hr', hrr⟩ := h
    have hc := msat_mem hcr
    have ht := ih cr.2 r' hr'
    subst hrr
    refine ⟨by simp [ht.1], ?_⟩
    simp [List.all_cons, hc.1, ht.2]

/-- A leftmost-match result is a genuine match of the pattern at some
start position. -/
theorem searchFirstR_mem {p : Matcher α} :
    ∀ {s : List Char} {pr : α × List Char},
      searchFirstR p s = some pr → ∃ s', pr ∈ p s' := by
  intro s
  induction s with
  | nil =>
    intro pr h
    simp only [searchFirstR] at h
    exact ⟨[], List.mem_of_mem_head? h⟩
  | cons c rest ih =>
    intro pr h
    cases hp : p (c :: rest) with
    | nil =>
      simp only [searchFirstR, hp] at h
      exact ih h
    | cons r rs =>
      simp only [searchFirstR, hp] at h
      cases Option.some.inj h
      exact ⟨c :: rest, by rw [hp]; exact List.mem_cons_self _ _⟩

/-- Every match of the source's ISIN pattern is the literal `NL` followed
by exactly 10 characters drawn from `[A-Z0-9]`. -/
theorem isinP_shape {s : List Char} {r : List Char × List Char}
    (h : r ∈ isinP s) :
    ∃ tail, r.1 = 'N' :: 'L' :: tail ∧ tail.length = 10 ∧
      tail.all isUpperAlnum = true := by
  simp only [isinP, mbind, mpure, List.mem_flatMap, List.mem_singleton] at h
  obtain ⟨c1, hc1, c2, hc2, tr, htr, hr⟩ := h
  have ht := mrep_sound 10 c2.2 tr htr
  subst hr
  exact ⟨tr.1, rfl, ht.1, ht.2⟩

/-- Any ASCII letter (upper or lower case). -/
def isAsciiLetter (c : Char) : Bool :=
  ('A' ≤ c && c ≤ 'Z') || ('a' ≤ c && c ≤ 'z')

/-- Any ASCII letter or digit. -/
def isAsciiAlnum (c : Char) : Bool := isAsciiLetter c || c.isDigit

/-- Follows the claim's words, for the refinement comparison: "a 2-letter
country-style prefix followed by 10 alphanumeric characters (any two
letters, then 10 characters drawn from letters and digits)". -/
def specIdCodeP : Matcher (List Char) :=
  mbind (msat isAsciiLetter) fun c1 =>
  mbind (msat isAsciiLetter) fun c2 =>
  mbind (mrep (msat isAsciiAlnum) 10) fun r =>
  mpure (c1 :: c2 :: r)

/-- The claim's identifier-code extractor: first substring matching the
two-letters-plus-10-alphanumerics pattern, null when absent. -/
def specIdCode (t : List Char) : Option String :=
  (searchFirst specIdCodeP t).map String.mk

/-- C5 counterexample: on the input `DE1234567890` the claim's pattern
(any two letters, then 10 alphanumerics) has a match, yet the Extractor's
identifier-code field is null — the source pattern requires the literal
prefix `NL`. -/
theorem specIdCode_mismatch_DE :
    specIdCode "DE1234567890".toList = some "DE1234567890" ∧
    (extract "DE1234567890").isin = none := by
  constructor
  · decide
  · decide

/-- C5 (amended): the identifier-code field is the first substring
matching the literal prefix `NL` followed by 10 characters drawn from
uppercase letters and digits, and is null when no such substring
exists. -/
theorem isin_first_NL_match (t : List Char) :
    ((extractChars t).isin = none ↔ searchFirst isinP t = none) ∧
    (∀ cs, searchFirst isinP t = some cs →
      (extractChars t).isin = some (String.mk cs) ∧
      ∃ tail, cs = 'N' :: 'L' :: tail ∧ tail.length = 10 ∧
        tail.all isUpperAlnum = true) ∧
    (extract "ISIN: NL0013689110").isin = some "NL0013689110" := by
  refine ⟨?_, ?_, by decide⟩
  · rw [extractChars_isin t]
    cases h : searchFirst isinP t <;> simp
  · intro cs h
    refine ⟨by rw [extractChars_isin t, h]; rfl, ?_⟩
    unfold searchFirst at h
    obtain ⟨pr, hpr, hfst⟩ := Option.map_eq_some'.mp h
    obtain ⟨s', hmem⟩ := searchFirstR_mem hpr
    obtain ⟨tail, h1, h2, h3⟩ := isinP_shape hmem
    exact ⟨tail, by rw [← hfst, h1], h2, h3⟩

/-- Witness for C5 (amended): the positive branch at the repository's own
ISIN `NL0013689110`. -/
theorem isin_first_NL_match_witness :
    (extractChars "ISIN: NL0013689110".toList).isin = some "NL0013689110" ∧
    ∃ tail, "NL0013689110".toList = 'N' :: 'L' :: tail ∧ tail.length = 10 ∧
      tail.all isUpperAlnum = true := by
  have h := (isin_first_NL_match "ISIN: NL0013689110".toList).2.1
    "NL0013689110".toList (by decide)
  exact ⟨h.1, h.2⟩
